import Mathlib

/-!
Verification development for the `importo` static import analyzer.

The analyzer scans the `*.py` files under a project root, extracts the
top-level module names referenced by import statements, classifies every
reference (`stdlib` / `third-party` / `local`), folds the results into a
directed graph of module dependencies plus per-module counters, detects
circular dependency chains with a depth-first search, and renders
optimization suggestions from the counters.

The definitions below are a shallow embedding of the Python sources:
`import_visitor.py`, `import_analyzer.py` and `optimizer.py`.  Python
dictionaries keyed by module name become association lists (preserving
insertion order where the code observes it) or total functions with the
`defaultdict` default; Python sets of edge pairs become `Finset`s; the
environment-dependent classifier `_get_import_type` becomes an explicit
function parameter `classify`, since for a fixed environment it is a pure
function of the module name.
-/

namespace Importo

/-! ### The visitor (`import_visitor.py`)

`ImportVisitor` walks the syntax tree and collects, into a Python `set`,
the first dotted-path segment of every name of every `import` statement
(`visit_Import`) and of the `from`-module of every `from ... import`
statement whose module is present (`visit_ImportFrom`).  A syntax tree is
modelled by the list of import statements the traversal encounters, in
traversal order; all other statements are `other`.  The resulting set is
modelled as the duplicate-free list of collected names in first-occurrence
order.
-/

/-- One statement as seen by the visitor: `import a, b.c` carries the
dotted names, `from m import x` carries the optional module (`none` for a
pure relative import such as `from . import x`), everything else is
`other`. -/
inductive PyStmt where
  | imp (names : List String)
  | impFrom (module : Option String)
  | other
deriving DecidableEq

/-- `name.split('.')[0]`: the first dotted-path segment, the characters
before the first `.` (the whole name when there is no dot). -/
def first_segment (s : String) : String :=
  String.mk (s.toList.takeWhile (fun c => c != '.'))

/-- The names the visitor adds, in traversal order, duplicates included. -/
def collect_imports (stmts : List PyStmt) : List String :=
  stmts.foldl (fun acc s =>
    match s with
    | PyStmt.imp names => acc ++ names.map first_segment
    | PyStmt.impFrom (some m) => acc ++ [first_segment m]
    | PyStmt.impFrom none => acc
    | PyStmt.other => acc) []

/-- `visitor.imports`, the Python set of collected names: the collected
names with duplicates removed. -/
def visitor_imports (stmts : List PyStmt) : List String := (collect_imports stmts).dedup

/-! ### File discovery and exclusion (`ImportAnalyzer._should_skip_file`) -/

/-- The `skip_patterns` set of `_should_skip_file`. -/
def skip_patterns : List String :=
  ["venv", "env", "__pycache__", "tests", "test_", ".tox", ".eggs", "build", "dist", ".git", ".env"]

/-- The `skip_extensions` set of `_should_skip_file`. -/
def skip_extensions : List String := [".json", ".js", ".css", ".html"]

/-- Python `pat in hay`: contiguous substring test. -/
def str_contains (hay pat : String) : Bool := decide (List.IsInfix pat.toList hay.toList)

/-- `_should_skip_file`: any pattern occurring as a substring anywhere in
the full path string, or a suffix match on the excluded extensions
(`Path.suffix` of a `*.py` discovered file is its trailing extension, so
the extension test is a suffix match on the path). -/
def should_skip_file (path : String) : Bool :=
  skip_patterns.any (fun p => str_contains path p) ||
    skip_extensions.any (fun e => decide (List.IsSuffix e.toList path.toList))

/-- `_get_module_name`: the path relative to the project root with the
`.py` suffix stripped (`with_suffix("")` on a `*.py` path drops the final
three characters) and every `/` replaced by `.` (character-by-character,
which is what `str.replace("/", ".")` does). -/
def get_module_name (relPath : String) : String :=
  String.mk ((relPath.dropRight 3).toList.map (fun c => if c = '/' then '.' else c))

/-! ### The analyzer state (`ImportAnalyzer.__init__`)

`self.import_graph` is a `defaultdict(set)` from module name to the set of
`(target, category)` pairs; `self.module_stats` is a `defaultdict` of
per-module counters defaulting to zero.  The embedding keeps the graph and
each counter as a total function (the `defaultdict` lookup), together with
the ordered key lists that record which keys the dictionaries actually
hold, since key membership and key iteration order are observable. -/

/-- One discovered source file: its path relative to the project root and
the parse result (`none` models `ast.parse` or the file read raising, in
which case `_analyze_file` catches the exception before any state was
touched). -/
structure PyFile where
  relPath : String
  parsed : Option (List PyStmt)
deriving DecidableEq

/-- The analyzer's mutable state. -/
structure AnalyzerState where
  graphKeys : List String
  graph : String → Finset (String × String)
  statsKeys : List String
  imports : String → Nat
  importedBy : String → Nat
  catImports : String → String → Nat
  importTime : String → Nat

/-- The state right after `__init__`: both dictionaries empty. -/
def initState : AnalyzerState :=
  { graphKeys := []
    graph := fun _ => ∅
    statsKeys := []
    imports := fun _ => 0
    importedBy := fun _ => 0
    catImports := fun _ _ => 0
    importTime := fun _ => 0 }

/-- `defaultdict` key creation: first access of a missing key appends it. -/
def insertKey (ks : List String) (k : String) : List String :=
  if k ∈ ks then ks else ks ++ [k]

/-- One iteration of the loop body of `_analyze_file` for one imported
name `t` of module `m`: add the `(t, classify t)` edge to `m`'s edge set,
bump `m`'s `"imports"` counter, bump `t`'s `"imported_by"` counter and
bump `m`'s per-category counter.  Accessing `import_graph[m]`,
`module_stats[m]` and `module_stats[t]` creates those keys. -/
def record_import (classify : String → String) (m : String)
    (st : AnalyzerState) (t : String) : AnalyzerState :=
  let ty := classify t
  { graphKeys := insertKey st.graphKeys m
    graph := fun x => if x = m then insert (t, ty) (st.graph m) else st.graph x
    statsKeys := insertKey (insertKey st.statsKeys m) t
    imports := fun x => if x = m then st.imports m + 1 else st.imports x
    importedBy := fun x => if x = t then st.importedBy t + 1 else st.importedBy x
    catImports := fun x c => if x = m ∧ c = ty then st.catImports m ty + 1 else st.catImports x c
    importTime := st.importTime }

/-- `_analyze_file`: on a parse or read failure nothing happens (the
exception is caught after zero mutations); otherwise the visitor's set of
names is folded into the state.  A file with an empty set of extracted
names runs the loop zero times and touches neither dictionary. -/
def analyze_file (classify : String → String) (st : AnalyzerState) (f : PyFile) : AnalyzerState :=
  match f.parsed with
  | none => st
  | some stmts =>
      (visitor_imports stmts).foldl (record_import classify (get_module_name f.relPath)) st

/-- The path `rglob` hands to `_should_skip_file`: project root joined
with the relative path. -/
def full_path (root rel : String) : String := root ++ "/" ++ rel

/-- `analyze_project`: fold `_analyze_file` over the discovered files that
are not excluded by `_should_skip_file`. -/
def analyze_project (root : String) (classify : String → String)
    (files : List PyFile) : AnalyzerState :=
  (files.filter (fun f => !should_skip_file (full_path root f.relPath))).foldl
    (analyze_file classify) initState

/-- One iteration of `analyze_import_load_times` for the graph key `m`:
record the measured duration, or leave the stat alone when the dynamic
module load raised `ImportError`. -/
def load_time_step (t : String → Option Nat) (s : AnalyzerState) (m : String) : AnalyzerState :=
  match t m with
  | none => s
  | some d => { s with importTime := fun x => if x = m then d else s.importTime x }

/-- `analyze_import_load_times`: for every key of the import graph,
dynamically import the module and record the wall-clock duration; on an
`ImportError` the stat is left alone.  The measurement is the
environment's business, so it enters as an oracle `t` from module name to
`none` (import failed) or the measured duration. -/
def analyze_import_load_times (t : String → Option Nat) (st : AnalyzerState) : AnalyzerState :=
  st.graphKeys.foldl (load_time_step t) st

/-- The module name a file contributes, `none` when parsing failed. -/
def parsed_name (f : PyFile) : Option String :=
  f.parsed.map (fun _ => get_module_name f.relPath)

/-- The sum of the `"imported_by"` counters over the modules present in
`module_stats`. -/
def sum_imported_by (st : AnalyzerState) : Nat := (st.statsKeys.map st.importedBy).sum

/-- The total number of edges of the import graph: the sizes of the edge
sets of all its keys, summed. -/
def total_edges (st : AnalyzerState) : Nat :=
  (st.graphKeys.map (fun k => (st.graph k).card)).sum

/-! ### Cycle detection (`ImportAnalyzer.get_circular_dependencies`)

The claims about cycle detection quantify over import graphs directly, so
the graph is taken here as an ordered association list from module name to
neighbor list: the keys in dictionary insertion order, each with its edge
set's targets in the set's iteration order.

`find_cycles` recurses on a fuel argument for termination; every call
that recurses strictly extends the duplicate-free current path by a node
of the graph, so with `cycle_fuel` (more than the number of node mentions)
the fuel never runs out and the embedding computes exactly what the
Python recursion computes.

`self.import_graph[node]` inside `find_cycles` is a `defaultdict` lookup:
when `node` is not a key it inserts a fresh empty entry.  The outer loop
`for node in self.import_graph` is iterating that same dictionary, and
CPython raises `RuntimeError: dictionary changed size during iteration`
at the next step of an iterator whose dictionary has grown.  The third
component of the `find_cycles` result records whether a missing key was
accessed; `get_circular_dependencies` returns `Except.error ()` (the
`RuntimeError`) whenever that happened, and the cycle list otherwise. -/

abbrev CycleGraph := List (String × List String)

/-- Neighbor targets of a node, `[]` for a missing key. -/
def neighbors_of (g : CycleGraph) (n : String) : List String :=
  match g.find? (fun kv => kv.1 == n) with
  | some kv => kv.2
  | none => []

/-- Whether `n` is a key of the graph dictionary. -/
def key_mem (g : CycleGraph) (n : String) : Bool := g.any (fun kv => kv.1 == n)

/-- `find_cycles(node, path, visited)`.  Result: the emitted cycles, the
visited set (threaded through, since Python shares one mutable set), and
whether a missing graph key was accessed. -/
def find_cycles (g : CycleGraph) : Nat → String → List String → List String →
    List (List String) × List String × Bool
  | 0, _, _, visited => ([], visited, false)
  | fuel + 1, node, path, visited =>
    if node ∈ path then
      ([path.dropWhile (fun x => x != node)], visited, false)
    else if node ∈ visited then
      ([], visited, false)
    else
      (neighbors_of g node).foldl
        (fun acc nb =>
          let r := find_cycles g fuel nb (path ++ [node]) acc.2.1
          (acc.1 ++ r.1, r.2.1, acc.2.2 || r.2.2))
        ([], node :: visited, !key_mem g node)

/-- The loop body of the neighbor fold of `find_cycles`, as a named
function (definitionally what the fold in `find_cycles` uses). -/
def cycle_step (g : CycleGraph) (fuel : Nat) (path : List String)
    (acc : List (List String) × List String × Bool) (nb : String) :
    List (List String) × List String × Bool :=
  let r := find_cycles g fuel nb path acc.2.1
  (acc.1 ++ r.1, r.2.1, acc.2.2 || r.2.2)

/-- Fuel that the recursion can never exhaust: one more than the number of
node mentions in the graph. -/
def cycle_fuel (g : CycleGraph) : Nat := g.length + (g.map (fun kv => kv.2.length)).sum + 1

/-- The body of the outer loop over the dictionary keys. -/
def root_step (g : CycleGraph) (acc : List (List String) × List String × Bool)
    (kv : String × List String) : List (List String) × List String × Bool :=
  let r := find_cycles g (cycle_fuel g) kv.1 [] acc.2.1
  (acc.1 ++ r.1, r.2.1, acc.2.2 || r.2.2)

/-- `get_circular_dependencies`: run `find_cycles` from every key with one
shared visited set; `Except.error ()` is the `RuntimeError` CPython raises
when the `defaultdict` grew under the outer iteration. -/
def get_circular_dependencies (g : CycleGraph) : Except Unit (List (List String)) :=
  if (g.foldl (root_step g) ([], [], false)).2.2 then Except.error ()
  else Except.ok (g.foldl (root_step g) ([], [], false)).1

/-- A directed edge of the graph. -/
def is_edge (g : CycleGraph) (a b : String) : Prop := b ∈ neighbors_of g a

instance (g : CycleGraph) (a b : String) : Decidable (is_edge g a b) :=
  decidable_of_iff (List.elem b (neighbors_of g a) = true) List.elem_iff

/-- A genuine simple cycle of the graph: non-empty, pairwise-distinct
modules, an edge between every pair of consecutive elements and an edge
from the last element back to the first (the appended `c.take 1` closes
the chain). -/
def SimpleCycle (g : CycleGraph) (c : List String) : Prop :=
  c ≠ [] ∧ c.Nodup ∧ List.Chain' (is_edge g) (c ++ c.take 1)

/-- A decision procedure for edge chains that the kernel can evaluate. -/
def chain_decide (g : CycleGraph) : (l : List String) → Decidable (List.Chain' (is_edge g) l)
  | [] => isTrue List.chain'_nil
  | [a] => isTrue (List.chain'_singleton a)
  | _ :: b :: rest =>
      @decidable_of_iff _ _ List.chain'_cons.symm
        (@instDecidableAnd _ _ inferInstance (chain_decide g (b :: rest)))

instance (g : CycleGraph) (c : List String) : Decidable (SimpleCycle g c) :=
  @instDecidableAnd _ _ inferInstance
    (@instDecidableAnd _ _ inferInstance (chain_decide g (c ++ c.take 1)))

/-! ### The optimizer (`optimizer.py` and
`ImportAnalyzer.suggest_optimizations`, which are the same function)

`module_stats` enters as an association list with the dictionary's keys in
order; the counters a module can have here are the four the function
reads, absent keys reading as `0` exactly as `stats.get(..., 0)` does.
Python's `sorted(..., key=lambda x: x[1], reverse=True)` is a stable sort
descending on the counter, which `List.mergeSort` with `Nat.ble b.2 a.2`
reproduces. -/

/-- The per-module counters `suggest_optimizations` reads. -/
structure ModStats where
  imports : Nat
  importedBy : Nat
  thirdPartyImports : Nat
  localImports : Nat
deriving DecidableEq

/-- `sorted(d.items(), key=lambda x: x[1], reverse=True)`: a stable sort
descending on the counter (CPython's sort is stable, and so is insertion
sort: among equal counters the dictionary order is preserved). -/
def sort_desc (l : List (String × Nat)) : List (String × Nat) :=
  List.insertionSort (fun a b => b.2 ≤ a.2) l

/-- `heavy_importers`: modules with strictly more than 10 imports. -/
def heavy_importers (ms : List (String × ModStats)) : List (String × Nat) :=
  ms.filterMap (fun p => if 10 < p.2.imports then some (p.1, p.2.imports) else none)

/-- `common_imports`: modules imported by strictly more than 5 modules. -/
def common_imports (ms : List (String × ModStats)) : List (String × Nat) :=
  ms.filterMap (fun p => if 5 < p.2.importedBy then some (p.1, p.2.importedBy) else none)

/-- `third_party_imports`: modules whose third-party import counter
strictly exceeds 3. -/
def third_party_heavy (ms : List (String × ModStats)) : List (String × Nat) :=
  ms.filterMap (fun p => if 3 < p.2.thirdPartyImports then some (p.1, p.2.thirdPartyImports) else none)

/-- `local_importers`: modules with strictly more than 5 local imports. -/
def local_heavy (ms : List (String × ModStats)) : List (String × Nat) :=
  ms.filterMap (fun p => if 5 < p.2.localImports then some (p.1, p.2.localImports) else none)

/-- The "many imports" block: header plus one line per qualifying module,
nothing when no module qualifies. -/
def many_section (ms : List (String × ModStats)) : List String :=
  if heavy_importers ms = [] then [] else
    "Modules with many imports (consider refactoring):" ::
      (sort_desc (heavy_importers ms)).map
        (fun p => "  - " ++ p.1 ++ ": " ++ toString p.2 ++ " imports")

/-- The "frequently imported" block. -/
def common_section (ms : List (String × ModStats)) : List String :=
  if common_imports ms = [] then [] else
    "\nFrequently imported modules (consider lazy loading):" ::
      (sort_desc (common_imports ms)).map
        (fun p => "  - " ++ p.1 ++ ": imported by " ++ toString p.2 ++ " modules")

/-- The third-party block, capped to the top 5. -/
def third_section (ms : List (String × ModStats)) : List String :=
  if third_party_heavy ms = [] then [] else
    "\nConsider centralizing these frequently used third-party imports:" ::
      ((sort_desc (third_party_heavy ms)).take 5).map
        (fun p => "  - " ++ p.1 ++ ": " ++ toString p.2 ++ " third-party imports")

/-- The local-imports block, capped to the top 5. -/
def local_section (ms : List (String × ModStats)) : List String :=
  if local_heavy ms = [] then [] else
    "\nConsider using __all__ to limit exported names in these modules:" ::
      ((sort_desc (local_heavy ms)).take 5).map
        (fun p => "  - " ++ p.1 ++ ": " ++ toString p.2 ++ " local imports")

/-- `suggest_optimizations`: the four blocks appended in program order. -/
def suggest_optimizations (ms : List (String × ModStats)) : List String :=
  many_section ms ++ common_section ms ++ third_section ms ++ local_section ms

/-! ### Invariants used by the proofs -/

/-- The invariant `find_cycles` maintains about its arguments: the current
path is duplicate-free, consecutive path elements are edges, and the last
path element (when the path is non-empty) has an edge to the node about to
be explored. -/
def PathOk (g : CycleGraph) (path : List String) (node : String) : Prop :=
  path.Nodup ∧ List.Chain' (is_edge g) path ∧
    ∀ l, path.getLast? = some l → is_edge g l node

/-- The bookkeeping invariant of the analyzer state: the key lists are
duplicate-free, counters and edge sets of absent keys are at their
defaults, every module's `"imports"` counter equals the size of its edge
set, and the `"imported_by"` counters sum to the total number of edges. -/
def StateInv (st : AnalyzerState) : Prop :=
  st.statsKeys.Nodup ∧ st.graphKeys.Nodup ∧
    (∀ x, x ∉ st.statsKeys → st.importedBy x = 0) ∧
    (∀ k, k ∉ st.graphKeys → st.graph k = ∅) ∧
    (∀ x, st.imports x = (st.graph x).card) ∧
    sum_imported_by st = total_edges st

/-! ## Theorems -/

/-! ### Small facts about `insertKey` -/

lemma mem_insertKey {ks : List String} {k x : String} :
    x ∈ insertKey ks k ↔ x ∈ ks ∨ x = k := by
  unfold insertKey
  by_cases h : k ∈ ks
  · rw [if_pos h]
    constructor
    · exact Or.inl
    · rintro (hx | rfl)
      · exact hx
      · exact h
  · rw [if_neg h]
    simp

lemma insertKey_nodup {ks : List String} {k : String} (h : ks.Nodup) :
    (insertKey ks k).Nodup := by
  unfold insertKey
  by_cases hk : k ∈ ks
  · rwa [if_pos hk]
  · rw [if_neg hk, List.nodup_append]
    exact ⟨h, List.nodup_singleton k, fun x hx hx2 => hk ((List.mem_singleton.mp hx2) ▸ hx)⟩

lemma self_mem_insertKey {ks : List String} {k : String} : k ∈ insertKey ks k :=
  mem_insertKey.mpr (Or.inr rfl)

/-! ### C4 — cycle detection on the three-module cycle, and the
`RuntimeError` on graphs with an unscanned target.

On the graph `A→B→C→A` (every target also a key) the search run from `A`
closes the cycle and the later roots are already visited, so the result
is `[[A, B, C]]`.  On the acyclic single-edge graph `a→b`, however, `b`
is not a key of the dictionary, so `find_cycles` performs a `defaultdict`
lookup that inserts a fresh key while the outer loop is iterating that
same dictionary, and CPython raises
`RuntimeError: dictionary changed size during iteration` instead of
returning `[]`. -/

/-- C4: on the three-edge cycle A→B, B→C, C→A the function returns the
single cycle `[A, B, C]` (a rotation of A, B, C); on the acyclic graph
with the single edge a→b, whose target `b` is not a graph key, it does
not return the empty list but raises `RuntimeError` (modelled as
`Except.error ()`), because the `defaultdict` lookup of `b` inserts a key
into the dictionary being iterated. -/
theorem cycle_detection_three_cycle_and_runtime_error :
    get_circular_dependencies [("A", ["B"]), ("B", ["C"]), ("C", ["A"])] =
      Except.ok [["A", "B", "C"]] ∧
    get_circular_dependencies [("a", ["b"])] = Except.error () := by
  exact ⟨rfl, rfl⟩

/-- C5: on the edge set X→A, X→Y, A→Y, Y→X, explored with key order
X, A, Y and X's neighbors in the order A, Y, the returned list is exactly
`[[X, A, Y]]`, although `[X, Y]` is a simple cycle of the graph: the edge
X→Y is explored only after Y was put into the shared visited set by the
traversal through A, so the two-element cycle is pruned and never
reported. -/
theorem cycle_detection_order_dependent_miss :
    get_circular_dependencies [("X", ["A", "Y"]), ("A", ["Y"]), ("Y", ["X"])] =
      Except.ok [["X", "A", "Y"]] ∧
    SimpleCycle [("X", ["A", "Y"]), ("A", ["Y"]), ("Y", ["X"])] ["X", "Y"] ∧
    ["X", "Y"] ∉ [["X", "A", "Y"]] ∧ ["Y", "X"] ∉ [["X", "A", "Y"]] := by
  exact ⟨rfl, by decide, by decide, by decide⟩

/-! ### C9 — a file whose read or parse fails contributes nothing -/

lemma analyze_file_parse_error {classify : String → String} {st : AnalyzerState} {f : PyFile}
    (h : f.parsed = none) : analyze_file classify st f = st := by
  unfold analyze_file
  rw [h]

lemma analyze_file_parsed {classify : String → String} {st : AnalyzerState} {f : PyFile}
    {stmts : List PyStmt} (h : f.parsed = some stmts) :
    analyze_file classify st f =
      (visitor_imports stmts).foldl (record_import classify (get_module_name f.relPath)) st := by
  unfold analyze_file
  rw [h]

/-- C9: analyzing a file whose read or parse raised (`parsed = none`, the
exception being thrown before any state mutation) leaves the analyzer
state exactly as it was, and a run over a file list containing such a file
equals the run with that file removed: the scan continues with the
remaining files and the bad file contributes nothing. -/
theorem parse_error_leaves_state_unchanged (root : String) (classify : String → String)
    (st : AnalyzerState) (f : PyFile) (fs1 fs2 : List PyFile) (h : f.parsed = none) :
    analyze_file classify st f = st ∧
    analyze_project root classify (fs1 ++ f :: fs2) = analyze_project root classify (fs1 ++ fs2) := by
  refine ⟨analyze_file_parse_error h, ?_⟩
  unfold analyze_project
  rw [List.filter_append, List.filter_append]
  by_cases hskip : should_skip_file (full_path root f.relPath) = true
  · rw [List.filter_cons_of_neg (by simp [hskip])]
  · rw [List.filter_cons_of_pos (by simp [Bool.not_eq_true] at hskip ⊢; exact hskip)]
    rw [List.foldl_append, List.foldl_append, List.foldl_cons, analyze_file_parse_error h]

/-- C9 witness: a concrete unparsable file between good files changes
nothing. -/
theorem parse_error_leaves_state_unchanged_witness :
    (⟨"bad.py", none⟩ : PyFile).parsed = none ∧
    (analyze_file (fun _ => "local") initState ⟨"bad.py", none⟩ = initState ∧
      analyze_project "proj" (fun _ => "local")
          ([] ++ (⟨"bad.py", none⟩ : PyFile) :: [⟨"good.py", some [PyStmt.imp ["os"]]⟩]) =
        analyze_project "proj" (fun _ => "local") ([] ++ [⟨"good.py", some [PyStmt.imp ["os"]]⟩])) :=
  ⟨rfl, parse_error_leaves_state_unchanged "proj" (fun _ => "local") initState
    ⟨"bad.py", none⟩ [] [⟨"good.py", some [PyStmt.imp ["os"]]⟩] rfl⟩

/-! ### C10 — exclusion is a substring match on the whole path -/

/-- C10: a file whose full path contains any of the fixed skip patterns
as a substring anywhere — even inside an unrelated name such as
`envelope.py`, which contains `env` — is skipped before parsing, and a run
over a list containing it equals the run with it removed: it contributes
no module key, no edges and no statistics. -/
theorem skip_pattern_excludes_file (root : String) (classify : String → String)
    (f : PyFile) (fs1 fs2 : List PyFile)
    (h : ∃ p ∈ skip_patterns, str_contains (full_path root f.relPath) p = true) :
    should_skip_file (full_path root f.relPath) = true ∧
    analyze_project root classify (fs1 ++ f :: fs2) = analyze_project root classify (fs1 ++ fs2) := by
  have hskip : should_skip_file (full_path root f.relPath) = true := by
    unfold should_skip_file
    rcases h with ⟨p, hp, hc⟩
    rw [Bool.or_eq_true, List.any_eq_true]
    exact Or.inl ⟨p, hp, hc⟩
  refine ⟨hskip, ?_⟩
  unfold analyze_project
  rw [List.filter_append, List.filter_append, List.filter_cons_of_neg (by simp [hskip])]

/-- C10 witness: `proj/envelope.py` contains the pattern `env` inside an
unrelated file name, so the file is dropped from the analysis. -/
theorem skip_pattern_excludes_file_witness :
    (∃ p ∈ skip_patterns,
      str_contains (full_path "proj" (⟨"envelope.py", some [PyStmt.imp ["os"]]⟩ : PyFile).relPath) p = true) ∧
    (should_skip_file (full_path "proj" (⟨"envelope.py", some [PyStmt.imp ["os"]]⟩ : PyFile).relPath) = true ∧
      analyze_project "proj" (fun _ => "local")
          ([] ++ (⟨"envelope.py", some [PyStmt.imp ["os"]]⟩ : PyFile) :: []) =
        analyze_project "proj" (fun _ => "local") ([] ++ [])) :=
  ⟨by decide, skip_pattern_excludes_file "proj" (fun _ => "local")
    ⟨"envelope.py", some [PyStmt.imp ["os"]]⟩ [] [] (by decide)⟩

/-! ### C8 — determinism up to load times -/

lemma load_time_step_fields (t : String → Option Nat) (s : AnalyzerState) (m : String) :
    (load_time_step t s m).graphKeys = s.graphKeys ∧
    (load_time_step t s m).graph = s.graph ∧
    (load_time_step t s m).statsKeys = s.statsKeys ∧
    (load_time_step t s m).imports = s.imports ∧
    (load_time_step t s m).importedBy = s.importedBy ∧
    (load_time_step t s m).catImports = s.catImports := by
  unfold load_time_step
  cases t m <;> exact ⟨rfl, rfl, rfl, rfl, rfl, rfl⟩

lemma load_time_fold_fields (t : String → Option Nat) :
    ∀ (ks : List String) (st : AnalyzerState),
      ((ks.foldl (load_time_step t) st)).graphKeys = st.graphKeys ∧
      ((ks.foldl (load_time_step t) st)).graph = st.graph ∧
      ((ks.foldl (load_time_step t) st)).statsKeys = st.statsKeys ∧
      ((ks.foldl (load_time_step t) st)).imports = st.imports ∧
      ((ks.foldl (load_time_step t) st)).importedBy = st.importedBy ∧
      ((ks.foldl (load_time_step t) st)).catImports = st.catImports := by
  intro ks
  induction ks with
  | nil => intro st; exact ⟨rfl, rfl, rfl, rfl, rfl, rfl⟩
  | cons m rest ih =>
      intro st
      rw [List.foldl_cons]
      obtain ⟨h1, h2, h3, h4, h5, h6⟩ := ih (load_time_step t st m)
      obtain ⟨g1, g2, g3, g4, g5, g6⟩ := load_time_step_fields t st m
      exact ⟨h1.trans g1, h2.trans g2, h3.trans g3, h4.trans g4, h5.trans g5, h6.trans g6⟩

/-- C8: on a fixed source tree (`files`) and a fixed module-resolution
environment (`classify`), two full runs — analysis followed by load-time
measurement — agree on the import graph (keys and edge sets) and on every
statistic except the load-time measurement, whatever durations the two
measurements `t1` and `t2` observe.  (The analysis phase itself never
reads the clock, so all nondeterminism is confined to `importTime`.) -/
theorem analysis_deterministic_except_load_times (root : String) (classify : String → String)
    (files : List PyFile) (t1 t2 : String → Option Nat) :
    (analyze_import_load_times t1 (analyze_project root classify files)).graphKeys =
      (analyze_import_load_times t2 (analyze_project root classify files)).graphKeys ∧
    (analyze_import_load_times t1 (analyze_project root classify files)).graph =
      (analyze_import_load_times t2 (analyze_project root classify files)).graph ∧
    (analyze_import_load_times t1 (analyze_project root classify files)).statsKeys =
      (analyze_import_load_times t2 (analyze_project root classify files)).statsKeys ∧
    (analyze_import_load_times t1 (analyze_project root classify files)).imports =
      (analyze_import_load_times t2 (analyze_project root classify files)).imports ∧
    (analyze_import_load_times t1 (analyze_project root classify files)).importedBy =
      (analyze_import_load_times t2 (analyze_project root classify files)).importedBy ∧
    (analyze_import_load_times t1 (analyze_project root classify files)).catImports =
      (analyze_import_load_times t2 (analyze_project root classify files)).catImports := by
  obtain ⟨a1, a2, a3, a4, a5, a6⟩ :=
    load_time_fold_fields t1 (analyze_project root classify files).graphKeys
      (analyze_project root classify files)
  obtain ⟨b1, b2, b3, b4, b5, b6⟩ :=
    load_time_fold_fields t2 (analyze_project root classify files).graphKeys
      (analyze_project root classify files)
  unfold analyze_import_load_times
  exact ⟨a1.trans b1.symm, a2.trans b2.symm, a3.trans b3.symm,
    a4.trans b4.symm, a5.trans b5.symm, a6.trans b6.symm⟩

/-! ### C7 — suggestion thresholds, ordering, caps and section shapes -/

lemma sort_desc_sorted (l : List (String × Nat)) :
    (sort_desc l).Pairwise (fun a b => b.2 ≤ a.2) :=
  @List.sorted_insertionSort (String × Nat) (fun a b => b.2 ≤ a.2) _
    ⟨fun a b => Nat.le_total b.2 a.2⟩ ⟨fun _ _ _ hab hbc => Nat.le_trans hbc hab⟩ l

lemma mem_sort_desc (l : List (String × Nat)) (p : String × Nat) :
    p ∈ sort_desc l ↔ p ∈ l :=
  (List.perm_insertionSort _ l).mem_iff

lemma length_sort_desc (l : List (String × Nat)) :
    (sort_desc l).length = l.length :=
  (List.perm_insertionSort _ l).length_eq

lemma mem_sort_desc_heavy {ms : List (String × ModStats)} {m : String} {st : ModStats}
    (hmem : (m, st) ∈ ms) :
    ((m, st.imports) ∈ sort_desc (heavy_importers ms)) ↔ 10 < st.imports := by
  rw [mem_sort_desc]
  unfold heavy_importers
  rw [List.mem_filterMap]
  constructor
  · rintro ⟨⟨m2, st2⟩, _hin, heq⟩
    by_cases h10 : 10 < st2.imports
    · rw [if_pos h10] at heq
      rw [Option.some.injEq, Prod.mk.injEq] at heq
      exact heq.2 ▸ h10
    · rw [if_neg h10] at heq
      cases heq
  · intro h10
    exact ⟨(m, st), hmem, by rw [if_pos h10]⟩

/-- C7: for every module-statistics mapping, a module's entry is in the
"many imports" listing exactly when its imports counter is strictly
greater than 10; every section lists its modules in descending counter
order; the third-party and local sections are capped at 5 entries; a
section with at least one qualifying module is its header line followed by
one line per listed module, and a category with no qualifying modules
contributes no lines at all; the output is the four blocks in program
order. -/
theorem suggest_optimizations_thresholds (ms : List (String × ModStats)) :
    (∀ m st, (m, st) ∈ ms →
      (((m, st.imports) ∈ sort_desc (heavy_importers ms)) ↔ 10 < st.imports)) ∧
    (sort_desc (heavy_importers ms)).Pairwise (fun a b => b.2 ≤ a.2) ∧
    (sort_desc (common_imports ms)).Pairwise (fun a b => b.2 ≤ a.2) ∧
    ((sort_desc (third_party_heavy ms)).take 5).Pairwise (fun a b => b.2 ≤ a.2) ∧
    ((sort_desc (local_heavy ms)).take 5).Pairwise (fun a b => b.2 ≤ a.2) ∧
    ((sort_desc (third_party_heavy ms)).take 5).length ≤ 5 ∧
    ((sort_desc (local_heavy ms)).take 5).length ≤ 5 ∧
    (heavy_importers ms = [] → many_section ms = []) ∧
    (heavy_importers ms ≠ [] → many_section ms =
      "Modules with many imports (consider refactoring):" ::
        (sort_desc (heavy_importers ms)).map
          (fun p => "  - " ++ p.1 ++ ": " ++ toString p.2 ++ " imports")) ∧
    (sort_desc (heavy_importers ms)).length = (heavy_importers ms).length ∧
    (common_imports ms = [] → common_section ms = []) ∧
    (common_imports ms ≠ [] → common_section ms =
      "\nFrequently imported modules (consider lazy loading):" ::
        (sort_desc (common_imports ms)).map
          (fun p => "  - " ++ p.1 ++ ": imported by " ++ toString p.2 ++ " modules")) ∧
    (sort_desc (common_imports ms)).length = (common_imports ms).length ∧
    (third_party_heavy ms = [] → third_section ms = []) ∧
    (local_heavy ms = [] → local_section ms = []) ∧
    suggest_optimizations ms =
      many_section ms ++ common_section ms ++ third_section ms ++ local_section ms := by
  refine ⟨fun m st hmem => mem_sort_desc_heavy hmem, sort_desc_sorted _, sort_desc_sorted _,
    List.Pairwise.sublist (List.take_sublist _ _) (sort_desc_sorted _),
    List.Pairwise.sublist (List.take_sublist _ _) (sort_desc_sorted _),
    ?_, ?_, ?_, ?_, length_sort_desc _, ?_, ?_, length_sort_desc _, ?_, ?_, rfl⟩
  · rw [List.length_take]; exact min_le_left _ _
  · rw [List.length_take]; exact min_le_left _ _
  · intro h; unfold many_section; rw [if_pos h]
  · intro h; unfold many_section; rw [if_neg h]
  · intro h; unfold common_section; rw [if_pos h]
  · intro h; unfold common_section; rw [if_neg h]
  · intro h; unfold third_section; rw [if_pos h]
  · intro h; unfold local_section; rw [if_pos h]

/-- C7 witness: with two modules at 11 and 10 imports, the module with 11
is listed and the one with 10 is not — both at the entry level and in the
rendered suggestion strings. -/
theorem suggest_optimizations_thresholds_witness :
    ((("big", (11 : Nat)) ∈ sort_desc (heavy_importers
        [("big", ⟨11, 0, 0, 0⟩), ("small", ⟨10, 0, 0, 0⟩)])) ∧
      ("small", (10 : Nat)) ∉ sort_desc (heavy_importers
        [("big", ⟨11, 0, 0, 0⟩), ("small", ⟨10, 0, 0, 0⟩)])) ∧
    "  - big: 11 imports" ∈ suggest_optimizations
      [("big", ⟨11, 0, 0, 0⟩), ("small", ⟨10, 0, 0, 0⟩)] ∧
    "  - small: 10 imports" ∉ suggest_optimizations
      [("big", ⟨11, 0, 0, 0⟩), ("small", ⟨10, 0, 0, 0⟩)] := by
  refine ⟨⟨?_, ?_⟩, by decide, by decide⟩
  · exact ((suggest_optimizations_thresholds
      [("big", ⟨11, 0, 0, 0⟩), ("small", ⟨10, 0, 0, 0⟩)]).1 "big" ⟨11, 0, 0, 0⟩
        (by decide)).mpr (by decide)
  · intro hm
    exact absurd (((suggest_optimizations_thresholds
      [("big", ⟨11, 0, 0, 0⟩), ("small", ⟨10, 0, 0, 0⟩)]).1 "small" ⟨10, 0, 0, 0⟩
        (by decide)).mp hm) (by decide)

/-! ### Facts about `record_import` folds -/

lemma record_import_graph_ne {classify : String → String} {m x : String}
    (hx : x ≠ m) (st : AnalyzerState) (t : String) :
    (record_import classify m st t).graph x = st.graph x := if_neg hx

lemma record_import_imports_ne {classify : String → String} {m x : String}
    (hx : x ≠ m) (st : AnalyzerState) (t : String) :
    (record_import classify m st t).imports x = st.imports x := if_neg hx

lemma record_import_graphKeys (classify : String → String) (m : String)
    (st : AnalyzerState) (t : String) :
    (record_import classify m st t).graphKeys = insertKey st.graphKeys m := rfl

lemma foldl_record_graph_ne {classify : String → String} {m x : String} (hx : x ≠ m) :
    ∀ (imps : List String) (st : AnalyzerState),
      ((imps.foldl (record_import classify m) st)).graph x = st.graph x := by
  intro imps
  induction imps with
  | nil => intro st; rfl
  | cons t rest ih =>
      intro st
      rw [List.foldl_cons]
      exact (ih _).trans (record_import_graph_ne hx st t)

lemma foldl_record_imports_ne {classify : String → String} {m x : String} (hx : x ≠ m) :
    ∀ (imps : List String) (st : AnalyzerState),
      ((imps.foldl (record_import classify m) st)).imports x = st.imports x := by
  intro imps
  induction imps with
  | nil => intro st; rfl
  | cons t rest ih =>
      intro st
      rw [List.foldl_cons]
      exact (ih _).trans (record_import_imports_ne hx st t)

lemma foldl_record_keys_not_mem {classify : String → String} {m x : String} (hx : x ≠ m) :
    ∀ (imps : List String) (st : AnalyzerState),
      x ∉ st.graphKeys → x ∉ ((imps.foldl (record_import classify m) st)).graphKeys := by
  intro imps
  induction imps with
  | nil => intro st h; exact h
  | cons t rest ih =>
      intro st h
      rw [List.foldl_cons]
      apply ih
      rw [record_import_graphKeys]
      intro hmem
      rcases mem_insertKey.mp hmem with h1 | h1
      · exact h h1
      · exact hx h1

lemma foldl_files_no_key (classify : String → String) (m : String) :
    ∀ (fs : List PyFile) (st : AnalyzerState),
      (∀ f ∈ fs, get_module_name f.relPath = m →
        (f.parsed.map visitor_imports).getD [] = []) →
      m ∉ st.graphKeys → st.graph m = ∅ →
      m ∉ ((fs.foldl (analyze_file classify) st)).graphKeys ∧
        ((fs.foldl (analyze_file classify) st)).graph m = ∅ := by
  intro fs
  induction fs with
  | nil => intro st _ h1 h2; exact ⟨h1, h2⟩
  | cons f rest ih =>
      intro st hq h1 h2
      rw [List.foldl_cons]
      cases hp : f.parsed with
      | none =>
          rw [analyze_file_parse_error hp]
          exact ih st (fun f2 hf2 => hq f2 (List.mem_cons_of_mem _ hf2)) h1 h2
      | some stmts =>
          by_cases hn : get_module_name f.relPath = m
          · have hempty : visitor_imports stmts = [] := by
              have h3 := hq f (List.mem_cons_self _ _) hn
              rw [hp] at h3
              simpa using h3
            have hfile : analyze_file classify st f = st := by
              rw [analyze_file_parsed hp, hempty]
              rfl
            rw [hfile]
            exact ih st (fun f2 hf2 => hq f2 (List.mem_cons_of_mem _ hf2)) h1 h2
          · have hx : m ≠ get_module_name f.relPath := fun e => hn e.symm
            rw [analyze_file_parsed hp]
            refine ih _ (fun f2 hf2 => hq f2 (List.mem_cons_of_mem _ hf2)) ?_ ?_
            · exact foldl_record_keys_not_mem hx _ st h1
            · exact (foldl_record_graph_ne hx _ st).trans h2

/-! ### C1 — a scanned file with no import statements leaves no graph key

The spec asserts such a module "is still a valid key in the graph with
zero outgoing edges".  In the code, `import_graph[module_name]` is only
accessed inside the loop over the visitor's imports, so a file with
no imports never touches the `defaultdict`; its module name is no key.
The `defaultdict` lookup of that name would still produce an empty edge
set (zero outgoing edges), which is the nearby statement that does hold. -/

/-- C1 counterexample: scanning `solo.py`, which parses and contains
no import statements, leaves `solo` absent from the import graph's
keys — the claim that it becomes a key is false. -/
theorem no_import_file_key_counterexample :
    "solo" ∉ (analyze_project "proj" (fun _ => "local") [⟨"solo.py", some []⟩]).graphKeys := by
  decide

/-- C1 amended: if every scanned file whose derived module name is `m`
produces no import statements (or fails to parse), then after
`analyze_project` the name `m` is not a key of the import graph, and the
graph's `defaultdict` lookup at `m` yields the empty edge set — zero
outgoing edges, but no key. -/
theorem no_import_file_zero_out_edges (root : String) (classify : String → String)
    (files : List PyFile) (m : String)
    (h : ∀ f ∈ files, get_module_name f.relPath = m →
      (f.parsed.map visitor_imports).getD [] = []) :
    m ∉ (analyze_project root classify files).graphKeys ∧
      (analyze_project root classify files).graph m = ∅ := by
  unfold analyze_project
  apply foldl_files_no_key
  · exact fun f hf => h f (List.mem_of_mem_filter hf)
  · exact List.not_mem_nil m
  · rfl

/-- C1 witness: a project with a no-import file `solo.py` and an
os-importing file `other.py`; the name `solo` is no key but has an empty
edge set. -/
theorem no_import_file_zero_out_edges_witness :
    (∀ f ∈ ([⟨"solo.py", some []⟩, ⟨"other.py", some [PyStmt.imp ["os"]]⟩] : List PyFile),
      get_module_name f.relPath = "solo" →
        (f.parsed.map visitor_imports).getD [] = []) ∧
    ("solo" ∉ (analyze_project "proj" (fun _ => "local")
        [⟨"solo.py", some []⟩, ⟨"other.py", some [PyStmt.imp ["os"]]⟩]).graphKeys ∧
      (analyze_project "proj" (fun _ => "local")
        [⟨"solo.py", some []⟩, ⟨"other.py", some [PyStmt.imp ["os"]]⟩]).graph "solo" = ∅) :=
  ⟨by decide, no_import_file_zero_out_edges "proj" (fun _ => "local")
    [⟨"solo.py", some []⟩, ⟨"other.py", some [PyStmt.imp ["os"]]⟩] "solo" (by decide)⟩

/-! ### The state invariant behind C2 and C3

Both invariants break when two distinct files collapse to the same
derived module name (for example `foo/bar.py` and the oddly named but
legal file `foo.bar.py` both become module `foo.bar`): the `"imports"`
counter is bumped per extracted name while the edge set deduplicates the
repeated pair, and `"imported_by"` is bumped even when the edge-set `add`
was a no-op.  When the derived module names of the successfully parsed,
non-skipped files are pairwise distinct — the situation of every sane
project — each file starts from an empty edge set, every added pair is
new, and both invariants hold. -/

lemma record_import_graph_self (classify : String → String) (m : String)
    (st : AnalyzerState) (t : String) :
    (record_import classify m st t).graph m = insert (t, classify t) (st.graph m) := if_pos rfl

lemma record_import_imports_self (classify : String → String) (m : String)
    (st : AnalyzerState) (t : String) :
    (record_import classify m st t).imports m = st.imports m + 1 := if_pos rfl

lemma record_import_importedBy_self (classify : String → String) (m : String)
    (st : AnalyzerState) (t : String) :
    (record_import classify m st t).importedBy t = st.importedBy t + 1 := if_pos rfl

lemma record_import_importedBy_ne {t x : String} (hx : x ≠ t) (classify : String → String)
    (m : String) (st : AnalyzerState) :
    (record_import classify m st t).importedBy x = st.importedBy x := if_neg hx

lemma record_import_statsKeys (classify : String → String) (m : String)
    (st : AnalyzerState) (t : String) :
    (record_import classify m st t).statsKeys = insertKey (insertKey st.statsKeys m) t := rfl

lemma sum_map_congr_not_mem {f h : String → Nat} {k : String}
    (ks : List String) (hk : k ∉ ks) (hcong : ∀ x, x ≠ k → h x = f x) :
    (ks.map h).sum = (ks.map f).sum := by
  rw [List.map_congr_left (fun a ha => hcong a (fun e => hk (e ▸ ha)))]

lemma sum_map_bump {f h : String → Nat} {k : String} :
    ∀ ks : List String, ks.Nodup → k ∈ ks → (∀ x, x ≠ k → h x = f x) →
      h k = f k + 1 → (ks.map h).sum = (ks.map f).sum + 1 := by
  intro ks
  induction ks with
  | nil => intro _ hk; cases hk
  | cons a rest ih =>
      intro hnd hk hcong hbump
      rw [List.map_cons, List.map_cons, List.sum_cons, List.sum_cons]
      by_cases ha : a = k
      · subst ha
        have hrest : rest.map h = rest.map f :=
          List.map_congr_left (fun x hx => hcong x (fun e => (List.nodup_cons.mp hnd).1 (e ▸ hx)))
        rw [hrest, hbump]
        omega
      · have hk2 : k ∈ rest := by
          rcases List.mem_cons.mp hk with h1 | h1
          · exact absurd h1.symm ha
          · exact h1
        rw [hcong a ha, ih (List.nodup_cons.mp hnd).2 hk2 hcong hbump]
        omega

lemma insertKey_of_mem {ks : List String} {k : String} (h : k ∈ ks) : insertKey ks k = ks :=
  if_pos h

lemma sum_map_insertKey_not_mem {f : String → Nat} {ks : List String} {k : String}
    (h : k ∉ ks) : ((insertKey ks k).map f).sum = (ks.map f).sum + f k := by
  unfold insertKey
  rw [if_neg h, List.map_append, List.sum_append]
  simp

lemma record_import_inv {classify : String → String} {m : String} {st : AnalyzerState}
    (hInv : StateInv st) (t : String) (hfresh : (t, classify t) ∉ st.graph m) :
    StateInv (record_import classify m st t) := by
  obtain ⟨hndS, hndG, hsupS, hsupG, hcard, hsum⟩ := hInv
  have hsub1 : ∀ x, x ∈ st.statsKeys → x ∈ (record_import classify m st t).statsKeys := by
    intro x hx
    rw [record_import_statsKeys]
    exact mem_insertKey.mpr (Or.inl (mem_insertKey.mpr (Or.inl hx)))
  refine ⟨?_, ?_, ?_, ?_, ?_, ?_⟩
  · rw [record_import_statsKeys]
    exact insertKey_nodup (insertKey_nodup hndS)
  · exact insertKey_nodup hndG
  · intro x hx
    have hxt : x ≠ t := by
      intro e
      apply hx
      rw [record_import_statsKeys, e]
      exact self_mem_insertKey
    rw [record_import_importedBy_ne hxt]
    exact hsupS x (fun hmem => hx (hsub1 x hmem))
  · intro k hk
    have hkm : k ≠ m := by
      intro e
      apply hk
      rw [e]
      exact self_mem_insertKey
    rw [record_import_graph_ne hkm]
    refine hsupG k (fun hmem => hk ?_)
    exact mem_insertKey.mpr (Or.inl hmem)
  · intro x
    by_cases hx : x = m
    · subst hx
      rw [record_import_imports_self, record_import_graph_self,
        Finset.card_insert_of_not_mem hfresh, hcard x]
    · rw [record_import_imports_ne hx, record_import_graph_ne hx, hcard x]
  · show sum_imported_by (record_import classify m st t) =
      total_edges (record_import classify m st t)
    unfold sum_imported_by total_edges
    rw [record_import_statsKeys]
    have hA : ((insertKey st.statsKeys m).map st.importedBy).sum =
        (st.statsKeys.map st.importedBy).sum := by
      by_cases hm : m ∈ st.statsKeys
      · rw [insertKey_of_mem hm]
      · rw [sum_map_insertKey_not_mem hm, hsupS m hm]
        omega
    have hL : (((insertKey (insertKey st.statsKeys m) t).map
        (record_import classify m st t).importedBy)).sum =
        (st.statsKeys.map st.importedBy).sum + 1 := by
      by_cases ht : t ∈ insertKey st.statsKeys m
      · rw [insertKey_of_mem ht]
        rw [sum_map_bump (insertKey st.statsKeys m) (insertKey_nodup hndS) ht
          (fun x hx => record_import_importedBy_ne hx classify m st)
          (record_import_importedBy_self classify m st t), hA]
      · rw [sum_map_insertKey_not_mem ht,
          sum_map_congr_not_mem (insertKey st.statsKeys m) ht
            (fun x hx => record_import_importedBy_ne hx classify m st), hA,
          record_import_importedBy_self classify m st t,
          hsupS t (fun hmem => ht (mem_insertKey.mpr (Or.inl hmem)))]
    have hR : (((insertKey st.graphKeys m).map
        (fun k => ((record_import classify m st t).graph k).card))).sum =
        (st.graphKeys.map (fun k => (st.graph k).card)).sum + 1 := by
      by_cases hm : m ∈ st.graphKeys
      · rw [sum_map_bump (insertKey st.graphKeys m) (insertKey_nodup hndG)
          (mem_insertKey.mpr (Or.inl hm))
          (fun k hk => by rw [record_import_graph_ne hk])
          (by rw [record_import_graph_self, Finset.card_insert_of_not_mem hfresh]),
          insertKey_of_mem hm]
      · rw [sum_map_insertKey_not_mem hm,
          sum_map_congr_not_mem st.graphKeys hm
            (fun k hk => by rw [record_import_graph_ne hk]),
          record_import_graph_self, hsupG m hm,
          Finset.card_insert_of_not_mem (Finset.not_mem_empty _)]
        rfl
    rw [record_import_graphKeys, hL, hR]
    unfold sum_imported_by total_edges at hsum
    rw [hsum]

lemma foldl_record_inv {classify : String → String} {m : String} :
    ∀ (imps : List String) (st : AnalyzerState), imps.Nodup → StateInv st →
      (∀ s ∈ imps, (s, classify s) ∉ st.graph m) →
      StateInv ((imps.foldl (record_import classify m) st)) := by
  intro imps
  induction imps with
  | nil => intro st _ hInv _; exact hInv
  | cons t rest ih =>
      intro st hnd hInv hfresh
      rw [List.foldl_cons]
      refine ih _ (List.nodup_cons.mp hnd).2
        (record_import_inv hInv t (hfresh t (List.mem_cons_self _ _))) ?_
      intro s hs
      rw [record_import_graph_self]
      intro hmem
      rcases Finset.mem_insert.mp hmem with h1 | h1
      · have hst : s = t := congrArg Prod.fst h1
        exact (List.nodup_cons.mp hnd).1 (hst ▸ hs)
      · exact hfresh s (List.mem_cons_of_mem _ hs) h1

lemma foldl_files_inv (classify : String → String) :
    ∀ (fs : List PyFile) (st : AnalyzerState),
      (fs.filterMap parsed_name).Nodup →
      StateInv st →
      (∀ f ∈ fs, ∀ stmts, f.parsed = some stmts → st.graph (get_module_name f.relPath) = ∅) →
      StateInv ((fs.foldl (analyze_file classify) st)) := by
  intro fs
  induction fs with
  | nil => intro st _ hInv _; exact hInv
  | cons f rest ih =>
      intro st hnd hInv hzero
      rw [List.foldl_cons]
      cases hp : f.parsed with
      | none =>
          rw [analyze_file_parse_error hp]
          have heq : (f :: rest).filterMap parsed_name = rest.filterMap parsed_name := by
            rw [List.filterMap_cons, show parsed_name f = none from by
              unfold parsed_name; rw [hp]; rfl]
          rw [heq] at hnd
          exact ih st hnd hInv (fun f2 hf2 => hzero f2 (List.mem_cons_of_mem _ hf2))
      | some stmts =>
          rw [analyze_file_parsed hp]
          have hpn : parsed_name f = some (get_module_name f.relPath) := by
            unfold parsed_name; rw [hp]; rfl
          have hsplit : (f :: rest).filterMap parsed_name =
              get_module_name f.relPath :: rest.filterMap parsed_name := by
            rw [List.filterMap_cons, hpn]
          rw [hsplit] at hnd
          have hnotin : get_module_name f.relPath ∉ rest.filterMap parsed_name :=
            (List.nodup_cons.mp hnd).1
          refine ih _ (List.nodup_cons.mp hnd).2 ?_ ?_
          · refine foldl_record_inv _ _ (by unfold visitor_imports; exact List.nodup_dedup _)
              hInv ?_
            intro s _
            rw [hzero f (List.mem_cons_self _ _) stmts hp]
            exact Finset.not_mem_empty _
          · intro f2 hf2 stmts2 hp2
            have hne : get_module_name f2.relPath ≠ get_module_name f.relPath := by
              intro he
              apply hnotin
              rw [← he]
              exact List.mem_filterMap.mpr ⟨f2, hf2, by unfold parsed_name; rw [hp2]; rfl⟩
            rw [foldl_record_graph_ne hne]
            exact hzero f2 (List.mem_cons_of_mem _ hf2) stmts2 hp2

lemma initState_inv : StateInv initState := by
  refine ⟨List.nodup_nil, List.nodup_nil, fun x _ => rfl, fun k _ => rfl, fun x => rfl, rfl⟩

/-! ### C2 — the imports counter versus the edge set -/

/-- C2 counterexample: the files `foo/bar.py` and `foo.bar.py` both
derive the module name `foo.bar`; when both import `os`, the counter is
bumped twice while the edge set holds the single pair `(os, stdlib)`, so
the counter (2) differs from the number of distinct edges (1) and the
claim as stated is false. -/
theorem imports_counter_collision_counterexample :
    ¬ ((analyze_project "proj" (fun _ => "stdlib")
        [⟨"foo/bar.py", some [PyStmt.imp ["os"]]⟩,
          ⟨"foo.bar.py", some [PyStmt.imp ["os"]]⟩]).imports "foo.bar" =
      ((analyze_project "proj" (fun _ => "stdlib")
        [⟨"foo/bar.py", some [PyStmt.imp ["os"]]⟩,
          ⟨"foo.bar.py", some [PyStmt.imp ["os"]]⟩]).graph "foo.bar").card) := by
  decide

/-- C2 amended: when the derived module names of the successfully parsed,
non-skipped files are pairwise distinct (no two files collapse to one
module name), every module's `"imports"` counter equals the number of
distinct `(target, category)` pairs in its edge set; a file importing
`os`, `os.path` and `requests` yields exactly the two edges
`(os, stdlib)` and `(requests, third-party)` and a counter of 2, each
dotted name being collapsed to its first segment and deduplicated by the
visitor's set. -/
theorem imports_counter_eq_edge_card (root : String) (classify : String → String)
    (files : List PyFile)
    (h : (((files.filter (fun f => !should_skip_file (full_path root f.relPath))).filterMap
        parsed_name)).Nodup) :
    ∀ m, (analyze_project root classify files).imports m =
      ((analyze_project root classify files).graph m).card := by
  unfold analyze_project
  exact (foldl_files_inv classify
    (files.filter (fun f => !should_skip_file (full_path root f.relPath))) initState h
    initState_inv (fun f _ stmts _ => rfl)).2.2.2.2.1

/-- C2 witness: the spec's own example, a file importing `os`, `os.path`
and `requests`. -/
theorem imports_counter_eq_edge_card_witness :
    ((([⟨"app.py", some [PyStmt.imp ["os"], PyStmt.imp ["os.path"], PyStmt.imp ["requests"]]⟩] :
        List PyFile).filter
        (fun f => !should_skip_file (full_path "proj" f.relPath))).filterMap parsed_name).Nodup ∧
    (analyze_project "proj"
        (fun s => if s = "os" then "stdlib" else if s = "requests" then "third-party" else "local")
        [⟨"app.py", some [PyStmt.imp ["os"], PyStmt.imp ["os.path"], PyStmt.imp ["requests"]]⟩]).imports
        "app" =
      ((analyze_project "proj"
        (fun s => if s = "os" then "stdlib" else if s = "requests" then "third-party" else "local")
        [⟨"app.py", some [PyStmt.imp ["os"], PyStmt.imp ["os.path"], PyStmt.imp ["requests"]]⟩]).graph
        "app").card ∧
    (analyze_project "proj"
        (fun s => if s = "os" then "stdlib" else if s = "requests" then "third-party" else "local")
        [⟨"app.py", some [PyStmt.imp ["os"], PyStmt.imp ["os.path"], PyStmt.imp ["requests"]]⟩]).imports
        "app" = 2 ∧
    (analyze_project "proj"
        (fun s => if s = "os" then "stdlib" else if s = "requests" then "third-party" else "local")
        [⟨"app.py", some [PyStmt.imp ["os"], PyStmt.imp ["os.path"], PyStmt.imp ["requests"]]⟩]).graph
        "app" = {("os", "stdlib"), ("requests", "third-party")} :=
  ⟨by decide,
    imports_counter_eq_edge_card "proj"
      (fun s => if s = "os" then "stdlib" else if s = "requests" then "third-party" else "local")
      [⟨"app.py", some [PyStmt.imp ["os"], PyStmt.imp ["os.path"], PyStmt.imp ["requests"]]⟩]
      (by decide) "app",
    by decide, by decide⟩

/-! ### C3 — the imported-by counters versus the edge count -/

/-- C3 counterexample: with the colliding files `foo/bar.py` and
`foo.bar.py` both importing `os`, the `"imported_by"` counters sum to 2
while the graph holds a single edge, so the claim as stated is false. -/
theorem imported_by_sum_collision_counterexample :
    ¬ (sum_imported_by (analyze_project "proj" (fun _ => "stdlib")
        [⟨"foo/bar.py", some [PyStmt.imp ["os"]]⟩,
          ⟨"foo.bar.py", some [PyStmt.imp ["os"]]⟩]) =
      total_edges (analyze_project "proj" (fun _ => "stdlib")
        [⟨"foo/bar.py", some [PyStmt.imp ["os"]]⟩,
          ⟨"foo.bar.py", some [PyStmt.imp ["os"]]⟩])) := by
  decide

/-- C3 amended: when the derived module names of the successfully parsed,
non-skipped files are pairwise distinct, the `"imported_by"` counters
summed over all modules of `module_stats` equal the total number of edges
of the import graph, each edge bumping its target's counter exactly
once. -/
theorem imported_by_sum_eq_total_edges (root : String) (classify : String → String)
    (files : List PyFile)
    (h : (((files.filter (fun f => !should_skip_file (full_path root f.relPath))).filterMap
        parsed_name)).Nodup) :
    sum_imported_by (analyze_project root classify files) =
      total_edges (analyze_project root classify files) := by
  unfold analyze_project
  exact (foldl_files_inv classify
    (files.filter (fun f => !should_skip_file (full_path root f.relPath))) initState h
    initState_inv (fun f _ stmts _ => rfl)).2.2.2.2.2

/-- C3 witness: two files, `a.py` importing `os` and `b.py` importing
`os` and `a`: three edges, and the imported-by counters (os: 2, a: 1)
sum to 3. -/
theorem imported_by_sum_eq_total_edges_witness :
    ((([⟨"a.py", some [PyStmt.imp ["os"]]⟩,
        ⟨"b.py", some [PyStmt.imp ["os"], PyStmt.imp ["a"]]⟩] : List PyFile).filter
        (fun f => !should_skip_file (full_path "proj" f.relPath))).filterMap parsed_name).Nodup ∧
    sum_imported_by (analyze_project "proj" (fun _ => "local")
        [⟨"a.py", some [PyStmt.imp ["os"]]⟩,
          ⟨"b.py", some [PyStmt.imp ["os"], PyStmt.imp ["a"]]⟩]) =
      total_edges (analyze_project "proj" (fun _ => "local")
        [⟨"a.py", some [PyStmt.imp ["os"]]⟩,
          ⟨"b.py", some [PyStmt.imp ["os"], PyStmt.imp ["a"]]⟩]) ∧
    sum_imported_by (analyze_project "proj" (fun _ => "local")
        [⟨"a.py", some [PyStmt.imp ["os"]]⟩,
          ⟨"b.py", some [PyStmt.imp ["os"], PyStmt.imp ["a"]]⟩]) = 3 :=
  ⟨by decide,
    imported_by_sum_eq_total_edges "proj" (fun _ => "local")
      [⟨"a.py", some [PyStmt.imp ["os"]]⟩,
        ⟨"b.py", some [PyStmt.imp ["os"], PyStmt.imp ["a"]]⟩] (by decide),
    by decide⟩

/-! ### C6 — soundness of the cycle detector

Whatever the iteration order, every list `find_cycles` emits is a suffix
of the current path starting at the first occurrence of the revisited
node.  The current path is always a duplicate-free chain of edges whose
last element points at the node being explored (`PathOk`), so every
emitted list is a genuine simple cycle. -/

lemma head?_dropWhile_ne (node : String) :
    ∀ l : List String, node ∈ l → (l.dropWhile (fun x => x != node)).head? = some node := by
  intro l
  induction l with
  | nil => intro h; cases h
  | cons a t ih =>
      intro h
      by_cases ha : a = node
      · subst ha
        rw [List.dropWhile_cons_of_neg (by simp)]
        rfl
      · rw [List.dropWhile_cons_of_pos (by simp [ha])]
        refine ih ?_
        rcases List.mem_cons.mp h with h1 | h1
        · exact absurd h1.symm ha
        · exact h1

lemma simple_cycle_of_emit {g : CycleGraph} {path : List String} {node : String}
    (hOk : PathOk g path node) (hmem : node ∈ path) :
    SimpleCycle g (path.dropWhile (fun x => x != node)) := by
  obtain ⟨hnd, hch, hlast⟩ := hOk
  have hsplit : path.takeWhile (fun x => x != node) ++ path.dropWhile (fun x => x != node) = path :=
    List.takeWhile_append_dropWhile _ _
  have hne : path.dropWhile (fun x => x != node) ≠ [] := by
    intro h0
    have h1 := List.dropWhile_eq_nil_iff.mp h0 node hmem
    simp at h1
  have hhead : (path.dropWhile (fun x => x != node)).head? = some node :=
    head?_dropWhile_ne node path hmem
  have hch2 : List.Chain' (is_edge g) (path.dropWhile (fun x => x != node)) := by
    have hch3 := hch
    rw [← hsplit] at hch3
    exact (List.chain'_append.mp hch3).2.1
  have hlast_eq : (path.dropWhile (fun x => x != node)).getLast? = path.getLast? := by
    conv_rhs => rw [← hsplit]
    rw [List.getLast?_append]
    obtain ⟨a, rest, hdw⟩ := List.exists_cons_of_ne_nil hne
    rw [hdw]
    cases hgl : (a :: rest).getLast? with
    | none => simp at hgl
    | some l => rfl
  have htake : (path.dropWhile (fun x => x != node)).take 1 = [node] := by
    obtain ⟨a, rest, hdw⟩ := List.exists_cons_of_ne_nil hne
    rw [hdw]
    rw [hdw] at hhead
    have ha : a = node := by simpa using hhead
    simp [ha]
  refine ⟨hne, List.Sublist.nodup (List.IsSuffix.sublist (List.dropWhile_suffix _)) hnd, ?_⟩
  rw [htake, List.chain'_append]
  refine ⟨hch2, List.chain'_singleton _, ?_⟩
  intro x hx y hy
  have hy2 : y = node := by
    have hy3 := hy
    simp at hy3
    exact hy3.symm
  subst hy2
  apply hlast
  rw [← hlast_eq]
  exact hx

lemma path_ok_extend {g : CycleGraph} {path : List String} {node nb : String}
    (hOk : PathOk g path node) (hmem : node ∉ path) (hedge : is_edge g node nb) :
    PathOk g (path ++ [node]) nb := by
  obtain ⟨hnd, hch, hlast⟩ := hOk
  refine ⟨?_, ?_, ?_⟩
  · rw [List.nodup_append]
    exact ⟨hnd, List.nodup_singleton _,
      fun x hx hx2 => hmem ((List.mem_singleton.mp hx2) ▸ hx)⟩
  · rw [List.chain'_append]
    refine ⟨hch, List.chain'_singleton _, ?_⟩
    intro x hx y hy
    have hy2 : y = node := by
      have hy3 := hy
      simp at hy3
      exact hy3.symm
    subst hy2
    exact hlast x hx
  · intro l hl
    rw [List.getLast?_concat] at hl
    have hln : l = node := (Option.some.inj hl).symm
    subst hln
    exact hedge

lemma find_cycles_succ (g : CycleGraph) (fuel : Nat) (node : String)
    (path visited : List String) :
    find_cycles g (fuel + 1) node path visited =
      if node ∈ path then ([path.dropWhile (fun x => x != node)], visited, false)
      else if node ∈ visited then ([], visited, false)
      else (neighbors_of g node).foldl (cycle_step g fuel (path ++ [node]))
        ([], node :: visited, !key_mem g node) := rfl

lemma cycle_step_fold_sound {g : CycleGraph} {fuel : Nat} {path2 : List String}
    (ihs : ∀ (node : String) (path visited : List String), PathOk g path node →
      ∀ c ∈ (find_cycles g fuel node path visited).1, SimpleCycle g c) :
    ∀ (nbs : List String) (acc : List (List String) × List String × Bool),
      (∀ nb ∈ nbs, PathOk g path2 nb) →
      (∀ c ∈ acc.1, SimpleCycle g c) →
      ∀ c ∈ ((nbs.foldl (cycle_step g fuel path2) acc)).1, SimpleCycle g c := by
  intro nbs
  induction nbs with
  | nil => intro acc _ hacc; exact hacc
  | cons nb rest ih =>
      intro acc hnbs hacc
      rw [List.foldl_cons]
      refine ih _ (fun x hx => hnbs x (List.mem_cons_of_mem _ hx)) ?_
      intro c2 hc2
      have hc3 : c2 ∈ acc.1 ++ (find_cycles g fuel nb path2 acc.2.1).1 := hc2
      rcases List.mem_append.mp hc3 with h | h
      · exact hacc c2 h
      · exact ihs nb path2 acc.2.1 (hnbs nb (List.mem_cons_self _ _)) c2 h

lemma find_cycles_sound (g : CycleGraph) :
    ∀ (fuel : Nat) (node : String) (path visited : List String),
      PathOk g path node →
      ∀ c ∈ (find_cycles g fuel node path visited).1, SimpleCycle g c := by
  intro fuel
  induction fuel with
  | zero =>
      intro node path visited _ c hc
      simp [find_cycles] at hc
  | succ fuel ih =>
      intro node path visited hOk c hc
      rw [find_cycles_succ] at hc
      by_cases hmem : node ∈ path
      · rw [if_pos hmem] at hc
        have hcd : c = path.dropWhile (fun x => x != node) := by
          simpa using hc
        subst hcd
        exact simple_cycle_of_emit hOk hmem
      · rw [if_neg hmem] at hc
        by_cases hvis : node ∈ visited
        · rw [if_pos hvis] at hc
          simp at hc
        · rw [if_neg hvis] at hc
          refine cycle_step_fold_sound (fun nd p v hOk2 => ih nd p v hOk2)
            (neighbors_of g node) _ ?_ ?_ c hc
          · intro nb hnb
            exact path_ok_extend hOk hmem hnb
          · intro c2 hc2
            cases hc2

lemma root_step_fold_sound (g : CycleGraph) :
    ∀ (ks : List (String × List String)) (acc : List (List String) × List String × Bool),
      (∀ c ∈ acc.1, SimpleCycle g c) →
      ∀ c ∈ ((ks.foldl (root_step g) acc)).1, SimpleCycle g c := by
  intro ks
  induction ks with
  | nil => intro acc hacc; exact hacc
  | cons kv rest ih =>
      intro acc hacc
      rw [List.foldl_cons]
      refine ih _ ?_
      intro c2 hc2
      have hc3 : c2 ∈ acc.1 ++ (find_cycles g (cycle_fuel g) kv.1 [] acc.2.1).1 := hc2
      rcases List.mem_append.mp hc3 with h | h
      · exact hacc c2 h
      · exact find_cycles_sound g (cycle_fuel g) kv.1 [] acc.2.1
          ⟨List.nodup_nil, List.chain'_nil, fun l hl => Option.noConfusion hl⟩ c2 h

/-- C6: soundness of `get_circular_dependencies`, whatever the key and
neighbor iteration orders: whenever the function returns a list of cycles
(rather than raising), every returned list is a genuine simple cycle of
the graph — non-empty, pairwise-distinct module names, an edge between
every pair of consecutive elements and an edge from the last element back
to the first. -/
theorem returned_cycles_are_simple_cycles (g : CycleGraph) (cs : List (List String))
    (c : List String) (h1 : get_circular_dependencies g = Except.ok cs) (h2 : c ∈ cs) :
    SimpleCycle g c := by
  unfold get_circular_dependencies at h1
  by_cases hb : ((g.foldl (root_step g) ([], [], false)).2.2 : Bool) = true
  · rw [if_pos hb] at h1
    cases h1
  · rw [if_neg hb] at h1
    injection h1 with h1
    rw [← h1] at h2
    exact root_step_fold_sound g g ([], [], false)
      (fun c2 hc2 => absurd hc2 (List.not_mem_nil c2)) c h2

/-- C6 witness: on the two-module cycle P→Q→P the function returns
`[[P, Q]]`, and the soundness theorem certifies it as a simple cycle. -/
theorem returned_cycles_are_simple_cycles_witness :
    get_circular_dependencies [("P", ["Q"]), ("Q", ["P"])] = Except.ok [["P", "Q"]] ∧
    SimpleCycle [("P", ["Q"]), ("Q", ["P"])] ["P", "Q"] :=
  ⟨rfl, returned_cycles_are_simple_cycles [("P", ["Q"]), ("Q", ["P"])] [["P", "Q"]] ["P", "Q"]
    rfl (List.mem_singleton.mpr rfl)⟩

end Importo
